import Mathlib

/-!
# VerifyPin: the transaction-confirmation client state machine

A shallow embedding of `src/react-components/VerifyPin.jsx`.

* The six `useState` cells of the component are the fields of `State`.
* `location.search`, read through `URLSearchParams`, is the ordered list of
  name-value pairs that the platform class holds; `get` returns the value of the
  first pair with the given name.
* The two `async` functions are split at their `await`: the part that runs
  until the request has been sent (`...Start`, `...Request`) and the part that
  runs when the call settles (`...Resume`), which receives the `Outcome` of the
  call.  `fetchTransactionDetails` is also given as a whole, with the network
  as a function from requests to outcomes.
* `render` is the JSX the component returns, reduced to what decides which
  handlers the page can invoke: the loading screen has no form, the input is
  `disabled={loading}`, the submit button is
  `disabled={pin.length !== 4 || loading}`.
* `apply` runs a handler unconditionally; `dispatch` runs it only when the
  rendered page can deliver the event.
* A session is one visit of one link: the effect runs once, on mount.  The
  teardown timer set on success and the Cancel button leave the page; the timers
  set are counted and the session is followed up to that point.
-/

namespace VerifyPin

/-! ## Data -/

/-- The `transaction` payload of a `get_transaction` response. -/
structure Transaction where
  amount : Int
  recipient_name : String
  account_number : String
  bank : String
  deriving DecidableEq

/-- The JSON body posted to `/api/verify-pin`.  `transaction_id` is what
`getTransactionId()` returned (`null` is `none`); `pin` is present only in a
`verify_pin` body. -/
structure Request where
  action : String
  transaction_id : Option String
  pin : Option String
  deriving DecidableEq

/-- The parsed JSON body of a response, typed as the endpoint's contract gives
it: the boolean `success`, and the optional members `error` (a string) and
`transaction` (an object); a member that is missing is `none`. -/
structure Response where
  success : Bool
  error : Option String
  transaction : Option Transaction
  deriving DecidableEq

/-- How an awaited call settles: a parsed response, or an exception thrown by
`fetch`, by `response.json()` or by reading a member of a body that is `null`
(the `catch` branch). -/
inductive Outcome where
  | response (r : Response)
  | throws
  deriving DecidableEq

/-- The component state: one field per `useState` cell (lines 5-10). -/
structure State where
  pin : String
  loading : Bool
  error : String
  success : String
  transactionData : Option Transaction
  fetchingTransaction : Bool
  deriving DecidableEq

/-- The initial values given to `useState`. -/
def State.initial : State :=
  { pin := "", loading := false, error := "", success := "",
    transactionData := none, fetchingTransaction := true }

/-! ## JavaScript primitives used by the component -/

/-- The `.length` of a JavaScript string: the number of UTF-16 code units. -/
def jsLength (s : String) : Nat :=
  (s.toList.map fun c => if c.toNat < 0x10000 then 1 else 2).sum

/-- The expression `v || fallback` for an optional string member: `undefined`
and the empty string are falsy. -/
def orElse (v : Option String) (fallback : String) : String :=
  match v with
  | some e => if e = "" then fallback else e
  | none => fallback

/-- The call `raw.replace(/[^0-9]/g, '')`: every character outside `0`-`9` is
removed. -/
def stripNonDigits (raw : String) : String :=
  String.mk (raw.toList.filter fun c => '0' ≤ c ∧ c ≤ '9')

/-- The name-value pairs of a `URLSearchParams` object, in order. -/
abbrev URLSearchParams := List (String × String)

/-- The method `URLSearchParams.get`: the value of the first pair with that
name, `null` when there is none. -/
def URLSearchParams.get (params : URLSearchParams) (name : String) : Option String :=
  (params.find? fun p => p.1 = name).map Prod.snd

/-! ## The component's functions -/

/-- Lines 16-19: `getTransactionId`. -/
def getTransactionId (search : URLSearchParams) : Option String :=
  URLSearchParams.get search "txn_id"

/-- Lines 35-44: the request `fetchTransactionDetails` sends. -/
def fetchTransactionDetailsRequest (txnId : String) : Request :=
  { action := "get_transaction", transaction_id := some txnId, pin := none }

/-- Lines 46-57: what `fetchTransactionDetails` does once its call settles. -/
def fetchTransactionDetailsResume (s : State) (o : Outcome) : State :=
  let s1 :=
    match o with
    | .response data =>
      if data.success then { s with transactionData := data.transaction }
      else { s with error := orElse data.error "Transaction not found" }
    | .throws => { s with error := "Failed to load transaction details" }
  { s1 with fetchingTransaction := false }

/-- Lines 33-58: `fetchTransactionDetails` run to completion against a network
`net`; returns the final state and the requests it sent, in order. -/
def fetchTransactionDetails (net : Request → Outcome) (txnId : String) (s : State) :
    State × List Request :=
  let req := fetchTransactionDetailsRequest txnId
  (fetchTransactionDetailsResume s (net req), [req])

/-- Lines 22-31: the synchronous part of the mount effect.  Returns the state
and the request sent by the `fetchTransactionDetails` call, if it is made. -/
def mountEffect (search : URLSearchParams) (s : State) : State × Option Request :=
  match getTransactionId search with
  | some txnId =>
    if txnId = "" then
      ({ s with error := "Invalid transaction link", fetchingTransaction := false }, none)
    else
      (s, some (fetchTransactionDetailsRequest txnId))
  | none =>
    ({ s with error := "Invalid transaction link", fetchingTransaction := false }, none)

/-- Lines 60-84: `handlePinSubmit` up to its `await fetch(...)`.  Returns the
state and the request sent, if any. -/
def handlePinSubmitStart (search : URLSearchParams) (s : State) : State × Option Request :=
  if jsLength s.pin ≠ 4 then
    ({ s with error := "Please enter a 4-digit PIN" }, none)
  else
    ({ s with loading := true, error := "" },
     some { action := "verify_pin", transaction_id := getTransactionId search,
            pin := some s.pin })

/-- Lines 86-102: what `handlePinSubmit` does once its call settles.  The
second component counts the teardown timers set by `setTimeout`. -/
def handlePinSubmitResume (s : State) (o : Outcome) : State × Nat :=
  let r : State × Nat :=
    match o with
    | .response result =>
      if result.success then
        ({ s with success := "Transfer completed successfully!" }, 1)
      else
        ({ s with error := orElse result.error "PIN verification failed", pin := "" }, 0)
    | .throws => ({ s with error := "Network error. Please try again." }, 0)
  ({ r.1 with loading := false }, r.2)

/-- Lines 105-110: `handlePinChange` on the raw value of the input. -/
def handlePinChange (s : State) (raw : String) : State :=
  let value := stripNonDigits raw
  if jsLength value ≤ 4 then { s with pin := value } else s

/-! ## The rendered page -/

/-- What the component returns (lines 112-217), reduced to the parts that
carry state: the loading screen, or the page with the details block, the two
message boxes and the form controls. -/
inductive View where
  | loadingScreen
  | page (details : Option Transaction) (errorBox : Option String)
      (successBox : Option String) (inputValue : String)
      (inputDisabled : Bool) (submitDisabled : Bool)
  deriving DecidableEq

/-- The expression `text && <div>...</div>` for a string: nothing is shown for
the empty string. -/
def showIf (text : String) : Option String :=
  if text = "" then none else some text

/-- Lines 112-217. -/
def render (s : State) : View :=
  if s.fetchingTransaction then .loadingScreen
  else
    .page s.transactionData (showIf s.error) (showIf s.success) s.pin
      s.loading (jsLength s.pin ≠ 4 || s.loading)

/-- The page has an input that accepts typing. -/
def View.inputEnabled : View → Bool
  | .loadingScreen => false
  | .page _ _ _ _ inputDisabled _ => !inputDisabled

/-- The page has a submit button that can be pressed. -/
def View.submitEnabled : View → Bool
  | .loadingScreen => false
  | .page _ _ _ _ _ submitDisabled => !submitDisabled

/-! ## Sessions -/

/-- One visit of a link: the query string, the component state, the calls in
flight, the requests sent so far and the teardown timers set. -/
structure Session where
  search : URLSearchParams
  ui : State
  resolving : Bool
  verifying : Nat
  sent : List Request
  teardowns : Nat
  deriving DecidableEq

/-- The session after the component has mounted and its effect has run. -/
def Session.mounted (search : URLSearchParams) : Session :=
  let r := mountEffect search State.initial
  { search := search, ui := r.1, resolving := r.2.isSome, verifying := 0,
    sent := r.2.toList, teardowns := 0 }

/-- What can happen after the mount: the input changes, the form is submitted,
the `get_transaction` call settles, a `verify_pin` call settles. -/
inductive Event where
  | change (raw : String)
  | submit
  | resolved (o : Outcome)
  | verified (o : Outcome)
  deriving DecidableEq

/-- Runs the handler of an event.  A call can settle only while it is in
flight. -/
def Session.apply (σ : Session) : Event → Session
  | .change raw => { σ with ui := handlePinChange σ.ui raw }
  | .submit =>
    let r := handlePinSubmitStart σ.search σ.ui
    { σ with ui := r.1, verifying := σ.verifying + r.2.toList.length,
             sent := σ.sent ++ r.2.toList }
  | .resolved o =>
    if σ.resolving then
      { σ with ui := fetchTransactionDetailsResume σ.ui o, resolving := false }
    else σ
  | .verified o =>
    if 0 < σ.verifying then
      let r := handlePinSubmitResume σ.ui o
      { σ with ui := r.1, verifying := σ.verifying - 1, teardowns := σ.teardowns + r.2 }
    else σ

/-- The rendered page can deliver the event: typing needs an enabled input,
submitting an enabled submit button; a settling call needs nothing. -/
def Session.delivers (σ : Session) : Event → Bool
  | .change _ => (render σ.ui).inputEnabled
  | .submit => (render σ.ui).submitEnabled
  | .resolved _ => true
  | .verified _ => true

/-- An event as the rendered page handles it. -/
def Session.dispatch (σ : Session) (e : Event) : Session :=
  if σ.delivers e then σ.apply e else σ

/-- A sequence of events handled by the rendered page. -/
def Session.run (σ : Session) (es : List Event) : Session :=
  es.foldl Session.dispatch σ

/-- A sequence of handler invocations, whatever the page shows. -/
def Session.invoke (σ : Session) (es : List Event) : Session :=
  es.foldl Session.apply σ

/-- The `verify_pin` requests among those sent. -/
def verifyRequests (reqs : List Request) : List Request :=
  reqs.filter fun r => r.action = "verify_pin"

/-- Every character is one of `0`-`9` and there are at most four. -/
def IsCandidate (pin : String) : Prop :=
  (∀ c ∈ pin.toList, '0' ≤ c ∧ c ≤ '9') ∧ pin.length ≤ 4

/-- The `get_transaction` requests among those sent. -/
def resolveRequests (reqs : List Request) : List Request :=
  reqs.filter fun r => r.action = "get_transaction"

/-- The `verify_pin` request of a session in its current state. -/
def Session.verifyRequest (σ : Session) : Request :=
  { action := "verify_pin", transaction_id := getTransactionId σ.search, pin := some σ.ui.pin }

/-- What holds of every session the page can reach: the resolve call is in
flight only while the loading screen is shown, nothing is submitted before it
ends, and `loading` is true exactly while the one `verify_pin` call is in
flight, with the error cleared. -/
structure Inv (σ : Session) : Prop where
  resolving_fetching : σ.resolving = true → σ.ui.fetchingTransaction = true
  fetching_idle : σ.ui.fetchingTransaction = true →
    σ.verifying = 0 ∧ verifyRequests σ.sent = []
  inflight : 0 < σ.verifying → σ.ui.loading = true ∧ σ.ui.error = ""
  single : σ.verifying ≤ 1
  loading_inflight : σ.ui.loading = true → 0 < σ.verifying

/-- What holds in addition of every session the page can reach, counting the
`verify_pin` requests sent: one has been sent when a call is in flight or the
success message is set, and two when the success message is set together with a
call in flight or with an error message. -/
structure Inv2 (σ : Session) : Prop where
  inflight_sent : 0 < σ.verifying → 1 ≤ (verifyRequests σ.sent).length
  success_sent : σ.ui.success ≠ "" → 1 ≤ (verifyRequests σ.sent).length
  resubmitted : σ.ui.success ≠ "" → 0 < σ.verifying → 2 ≤ (verifyRequests σ.sent).length
  both_sent : σ.ui.success ≠ "" → σ.ui.error ≠ "" → 2 ≤ (verifyRequests σ.sent).length

/-! ## Scenarios -/

/-- The response of scenario A. -/
def scenarioA : Response :=
  { success := true, error := none,
    transaction := some { amount := 5000, recipient_name := "Jane Doe",
                          account_number := "0123456789", bank := "Acme Bank" } }

/-- The session of scenario B: link `?txn_id=T1`, details fetched, candidate
`0000` typed. -/
def scenarioB : Session :=
  (Session.mounted [("txn_id", "T1")]).run [.resolved (.response scenarioA), .change "0000"]

/-- The session of scenario A with a submission in flight: link `?txn_id=T1`,
details fetched, candidate `1234` typed and submitted. -/
def scenarioASubmitting : Session :=
  (Session.mounted [("txn_id", "T1")]).run
    [.resolved (.response scenarioA), .change "1234", .submit]

/-- The session of scenario A after the server has accepted the PIN. -/
def scenarioACommitted : Session :=
  scenarioASubmitting.run
    [.verified (.response { success := true, error := none, transaction := none })]

/-! ## Helper lemmas -/

theorem jsLength_eq_length (s : String) (h : ∀ c ∈ s.toList, '0' ≤ c ∧ c ≤ '9') :
    jsLength s = s.length := by
  obtain ⟨l⟩ := s
  unfold jsLength
  simp only [String.toList, String.length] at h ⊢
  induction l with
  | nil => rfl
  | cons c cs ih =>
    have hc : c.toNat ≤ 57 := (h c (List.mem_cons_self c cs)).2
    have hlt : c.toNat < 0x10000 := by omega
    have ih2 := ih (fun d hd => h d (List.mem_cons_of_mem c hd))
    simp only [List.map_cons, List.sum_cons, List.length_cons, if_pos hlt, ih2]
    omega

theorem stripNonDigits_digits (raw : String) :
    ∀ c ∈ (stripNonDigits raw).toList, '0' ≤ c ∧ c ≤ '9' := by
  intro c hc
  simp only [stripNonDigits, String.toList, List.mem_filter, decide_eq_true_eq] at hc
  exact hc.2

theorem isCandidate_empty : IsCandidate "" :=
  ⟨fun c hc => by simp [String.toList] at hc, by decide⟩

theorem handlePinChange_candidate (s : State) (raw : String) (h : IsCandidate s.pin) :
    IsCandidate (handlePinChange s raw).pin := by
  unfold handlePinChange
  simp only
  split
  · next hle =>
    refine ⟨stripNonDigits_digits raw, ?_⟩
    rw [jsLength_eq_length _ (stripNonDigits_digits raw)] at hle
    exact hle
  · exact h

theorem handlePinSubmitStart_pin (search : URLSearchParams) (s : State) :
    (handlePinSubmitStart search s).1.pin = s.pin := by
  unfold handlePinSubmitStart
  split <;> rfl

theorem handlePinSubmitResume_candidate (s : State) (o : Outcome) (h : IsCandidate s.pin) :
    IsCandidate (handlePinSubmitResume s o).1.pin := by
  unfold handlePinSubmitResume
  rcases o with r | _
  · by_cases hs : r.success = true
    · simpa [hs] using h
    · simpa [hs] using isCandidate_empty
  · simpa using h

theorem fetchTransactionDetailsResume_pin (s : State) (o : Outcome) :
    (fetchTransactionDetailsResume s o).pin = s.pin := by
  unfold fetchTransactionDetailsResume
  rcases o with r | _
  · by_cases hs : r.success = true <;> simp [hs]
  · rfl

theorem apply_candidate (σ : Session) (e : Event) (h : IsCandidate σ.ui.pin) :
    IsCandidate (σ.apply e).ui.pin := by
  cases e with
  | change raw => exact handlePinChange_candidate σ.ui raw h
  | submit =>
    show IsCandidate (handlePinSubmitStart σ.search σ.ui).1.pin
    rw [handlePinSubmitStart_pin]; exact h
  | resolved o =>
    by_cases hr : σ.resolving = true
    · simp only [Session.apply, if_pos hr]
      rw [fetchTransactionDetailsResume_pin]; exact h
    · simp only [Session.apply, if_neg hr]; exact h
  | verified o =>
    by_cases hv : 0 < σ.verifying
    · simp only [Session.apply, if_pos hv]
      exact handlePinSubmitResume_candidate σ.ui o h
    · simp only [Session.apply, if_neg hv]; exact h

theorem dispatch_candidate (σ : Session) (e : Event) (h : IsCandidate σ.ui.pin) :
    IsCandidate (σ.dispatch e).ui.pin := by
  unfold Session.dispatch
  split
  · exact apply_candidate σ e h
  · exact h

theorem invoke_candidate (es : List Event) :
    ∀ σ : Session, IsCandidate σ.ui.pin → IsCandidate (σ.invoke es).ui.pin := by
  induction es with
  | nil => intro σ h; exact h
  | cons e es ih => intro σ h; exact ih (σ.apply e) (apply_candidate σ e h)

theorem run_candidate (es : List Event) :
    ∀ σ : Session, IsCandidate σ.ui.pin → IsCandidate (σ.run es).ui.pin := by
  induction es with
  | nil => intro σ h; exact h
  | cons e es ih => intro σ h; exact ih (σ.dispatch e) (dispatch_candidate σ e h)

theorem mounted_success (search : URLSearchParams) :
    (Session.mounted search).ui.success = "" := by
  unfold Session.mounted mountEffect
  simp only
  split
  · split <;> rfl
  · rfl

theorem mounted_pin (search : URLSearchParams) : (Session.mounted search).ui.pin = "" := by
  unfold Session.mounted mountEffect
  simp only
  split
  · split <;> rfl
  · rfl

theorem changes_candidate (raws : List String) :
    ∀ s : State, IsCandidate s.pin → IsCandidate (raws.foldl handlePinChange s).pin := by
  induction raws with
  | nil => intro s h; exact h
  | cons r rs ih => intro s h; exact ih _ (handlePinChange_candidate s r h)

theorem handlePinChange_loading (s : State) (raw : String) :
    (handlePinChange s raw).loading = s.loading := by
  unfold handlePinChange
  simp only
  split <;> rfl

theorem changes_loading (raws : List String) :
    ∀ s : State, (raws.foldl handlePinChange s).loading = s.loading := by
  induction raws with
  | nil => intro s; rfl
  | cons r rs ih => intro s; simp only [List.foldl_cons, ih, handlePinChange_loading]

theorem handlePinSubmitStart_resolveRequests (search : URLSearchParams) (s : State) :
    resolveRequests (handlePinSubmitStart search s).2.toList = [] := by
  unfold handlePinSubmitStart
  split
  · rfl
  · simp [Option.toList, resolveRequests]

theorem apply_resolveRequests (σ : Session) (e : Event) :
    resolveRequests (σ.apply e).sent = resolveRequests σ.sent := by
  cases e with
  | change raw => rfl
  | submit =>
    have h := handlePinSubmitStart_resolveRequests σ.search σ.ui
    simp only [resolveRequests] at h
    simp only [Session.apply, resolveRequests, List.filter_append, h, List.append_nil]
  | resolved o =>
    by_cases hr : σ.resolving = true
    · simp only [Session.apply, if_pos hr]
    · simp only [Session.apply, if_neg hr]
  | verified o =>
    by_cases hv : 0 < σ.verifying
    · simp only [Session.apply, if_pos hv]
    · simp only [Session.apply, if_neg hv]

theorem invoke_resolveRequests (es : List Event) :
    ∀ σ : Session, resolveRequests (σ.invoke es).sent = resolveRequests σ.sent := by
  induction es with
  | nil => intro σ; rfl
  | cons e es ih =>
    intro σ
    show resolveRequests ((σ.apply e).invoke es).sent = _
    rw [ih, apply_resolveRequests]

theorem orElse_some (e fallback : String) (h : e ≠ "") : orElse (some e) fallback = e := by
  simp [orElse, h]

theorem orElse_absent (v : Option String) (fallback : String) (h : v = none ∨ v = some "") :
    orElse v fallback = fallback := by
  rcases h with h | h <;> simp [orElse, h]

theorem delivers_submit_iff (σ : Session) :
    σ.delivers .submit = true ↔
      σ.ui.fetchingTransaction = false ∧ jsLength σ.ui.pin = 4 ∧ σ.ui.loading = false := by
  unfold Session.delivers render
  by_cases hf : σ.ui.fetchingTransaction = true
  · simp [hf, View.submitEnabled]
  · simp [hf, View.submitEnabled]

theorem delivers_change_iff (σ : Session) (raw : String) :
    σ.delivers (.change raw) = true ↔
      σ.ui.fetchingTransaction = false ∧ σ.ui.loading = false := by
  unfold Session.delivers render
  by_cases hf : σ.ui.fetchingTransaction = true
  · simp [hf, View.inputEnabled]
  · simp [hf, View.inputEnabled]

theorem dispatch_submit_ready (σ : Session) (hf : σ.ui.fetchingTransaction = false)
    (hl : σ.ui.loading = false) (h4 : jsLength σ.ui.pin = 4) :
    σ.dispatch .submit =
      { σ with ui := { σ.ui with loading := true, error := "" },
               verifying := σ.verifying + 1,
               sent := σ.sent ++ [σ.verifyRequest] } := by
  have hd : σ.delivers .submit = true := (delivers_submit_iff σ).2 ⟨hf, h4, hl⟩
  unfold Session.dispatch
  rw [if_pos hd]
  simp [Session.apply, handlePinSubmitStart, h4, Session.verifyRequest]

theorem dispatch_verified (σ : Session) (o : Outcome) (hv : 0 < σ.verifying) :
    σ.dispatch (.verified o) =
      { σ with ui := (handlePinSubmitResume σ.ui o).1, verifying := σ.verifying - 1,
               teardowns := σ.teardowns + (handlePinSubmitResume σ.ui o).2 } := by
  simp only [Session.dispatch, Session.delivers, if_true, Session.apply, if_pos hv]

theorem handlePinSubmitResume_denied (s : State) (r : Response) (h : r.success = false) :
    handlePinSubmitResume s (.response r) =
      ({ s with error := orElse r.error "PIN verification failed", pin := "",
                loading := false }, 0) := by
  simp [handlePinSubmitResume, h]

theorem handlePinSubmitResume_success (s : State) (r : Response) (h : r.success = true) :
    handlePinSubmitResume s (.response r) =
      ({ s with success := "Transfer completed successfully!", loading := false }, 1) := by
  simp [handlePinSubmitResume, h]

theorem handlePinSubmitResume_throws (s : State) :
    handlePinSubmitResume s .throws =
      ({ s with error := "Network error. Please try again.", loading := false }, 0) := by
  simp [handlePinSubmitResume]

theorem handlePinChange_eq (s : State) (raw : String) :
    handlePinChange s raw = { s with pin := (handlePinChange s raw).pin } := by
  unfold handlePinChange
  simp only
  split <;> rfl

theorem fetchTransactionDetailsResume_fields (s : State) (o : Outcome) :
    (fetchTransactionDetailsResume s o).loading = s.loading ∧
    (fetchTransactionDetailsResume s o).success = s.success ∧
    (fetchTransactionDetailsResume s o).fetchingTransaction = false := by
  unfold fetchTransactionDetailsResume
  rcases o with r | _
  · by_cases hs : r.success = true <;> simp [hs]
  · simp

theorem mounted_inv (search : URLSearchParams) : Inv (Session.mounted search) := by
  unfold Session.mounted mountEffect
  rcases hg : getTransactionId search with _ | txnId
  · constructor <;> simp [State.initial]
  · by_cases he : txnId = ""
    · constructor <;> simp [he, State.initial]
    · constructor <;>
        simp [he, State.initial, verifyRequests, fetchTransactionDetailsRequest]

theorem dispatch_inv (σ : Session) (e : Event) (h : Inv σ) : Inv (σ.dispatch e) := by
  by_cases hd : σ.delivers e = true
  swap
  · unfold Session.dispatch; rw [if_neg hd]; exact h
  cases e with
  | change raw =>
    have hΔ : σ.dispatch (.change raw) =
        { σ with ui := { σ.ui with pin := (handlePinChange σ.ui raw).pin } } := by
      unfold Session.dispatch
      rw [if_pos hd]
      show { σ with ui := handlePinChange σ.ui raw } = _
      rw [← handlePinChange_eq]
    rw [hΔ]
    exact ⟨h.resolving_fetching, h.fetching_idle, h.inflight, h.single, h.loading_inflight⟩
  | submit =>
    obtain ⟨hf, h4, hl⟩ := (delivers_submit_iff σ).1 hd
    rw [dispatch_submit_ready σ hf hl h4]
    have hv0 : σ.verifying = 0 := by
      by_contra hne
      have := (h.inflight (Nat.pos_of_ne_zero hne)).1
      rw [hl] at this
      exact Bool.false_ne_true this
    refine ⟨?_, ?_, ?_, ?_, ?_⟩
    · intro hr
      exact h.resolving_fetching hr
    · intro hft
      have hft2 : σ.ui.fetchingTransaction = true := hft
      rw [hf] at hft2
      exact absurd hft2 Bool.false_ne_true
    · intro _; exact ⟨rfl, rfl⟩
    · show σ.verifying + 1 ≤ 1
      omega
    · intro _; exact Nat.succ_pos _
  | resolved o =>
    by_cases hr : σ.resolving = true
    swap
    · simp only [Session.dispatch, Session.delivers, if_true, Session.apply, if_neg hr]
      exact h
    have hΔ : σ.dispatch (.resolved o) =
        { σ with ui := fetchTransactionDetailsResume σ.ui o, resolving := false } := by
      simp only [Session.dispatch, Session.delivers, if_true, Session.apply, if_pos hr]
    obtain ⟨hld, _, hft⟩ := fetchTransactionDetailsResume_fields σ.ui o
    have hidle := h.fetching_idle (h.resolving_fetching hr)
    rw [hΔ]
    refine ⟨?_, ?_, ?_, ?_, ?_⟩
    · intro hr2; exact absurd hr2 Bool.false_ne_true
    · intro hft2
      have hft3 : (fetchTransactionDetailsResume σ.ui o).fetchingTransaction = true := hft2
      rw [hft] at hft3
      exact absurd hft3 Bool.false_ne_true
    · intro hv
      have hv2 : 0 < σ.verifying := hv
      omega
    · exact h.single
    · intro hl
      have hl2 : (fetchTransactionDetailsResume σ.ui o).loading = true := hl
      rw [hld] at hl2
      exact h.loading_inflight hl2
  | verified o =>
    by_cases hv : 0 < σ.verifying
    swap
    · simp only [Session.dispatch, Session.delivers, if_true, Session.apply, if_neg hv]
      exact h
    rw [dispatch_verified σ o hv]
    have h1 := h.single
    have hnf : σ.ui.fetchingTransaction = false := by
      by_contra hne
      have := (h.fetching_idle (by simpa using hne)).1
      omega
    have hload : (handlePinSubmitResume σ.ui o).1.loading = false := by
      unfold handlePinSubmitResume; rfl
    have hfetch : (handlePinSubmitResume σ.ui o).1.fetchingTransaction
        = σ.ui.fetchingTransaction := by
      unfold handlePinSubmitResume
      rcases o with r | _
      · by_cases hs : r.success = true <;> simp [hs]
      · rfl
    refine ⟨?_, ?_, ?_, ?_, ?_⟩
    · intro hr
      have := h.resolving_fetching hr
      rw [hnf] at this
      exact absurd this Bool.false_ne_true
    · intro hft
      have hft2 : (handlePinSubmitResume σ.ui o).1.fetchingTransaction = true := hft
      rw [hfetch, hnf] at hft2
      exact absurd hft2 Bool.false_ne_true
    · intro hv2
      have hv3 : 0 < σ.verifying - 1 := hv2
      omega
    · show σ.verifying - 1 ≤ 1
      omega
    · intro hl
      have hl2 : (handlePinSubmitResume σ.ui o).1.loading = true := hl
      rw [hload] at hl2
      exact absurd hl2 Bool.false_ne_true

theorem run_inv (es : List Event) : ∀ σ : Session, Inv σ → Inv (σ.run es) := by
  induction es with
  | nil => intro σ h; exact h
  | cons e es ih => intro σ h; exact ih (σ.dispatch e) (dispatch_inv σ e h)

theorem dispatch_blocked_of_loading (σ : Session) (h : σ.ui.loading = true) :
    σ.dispatch .submit = σ ∧ ∀ raw, σ.dispatch (.change raw) = σ := by
  constructor
  · have hd : ¬ σ.delivers .submit = true := by
      rw [delivers_submit_iff]
      intro hc
      rw [h] at hc
      exact absurd hc.2.2 (by decide)
    unfold Session.dispatch
    rw [if_neg hd]
  · intro raw
    have hd : ¬ σ.delivers (.change raw) = true := by
      rw [delivers_change_iff]
      intro hc
      rw [h] at hc
      exact absurd hc.2 (by decide)
    unfold Session.dispatch
    rw [if_neg hd]

theorem dispatch_blocked_of_fetching (σ : Session) (h : σ.ui.fetchingTransaction = true) :
    σ.dispatch .submit = σ ∧ ∀ raw, σ.dispatch (.change raw) = σ := by
  constructor
  · have hd : ¬ σ.delivers .submit = true := by
      rw [delivers_submit_iff]
      intro hc
      rw [h] at hc
      exact absurd hc.1 (by decide)
    unfold Session.dispatch
    rw [if_neg hd]
  · intro raw
    have hd : ¬ σ.delivers (.change raw) = true := by
      rw [delivers_change_iff]
      intro hc
      rw [h] at hc
      exact absurd hc.1 (by decide)
    unfold Session.dispatch
    rw [if_neg hd]

theorem apply_success_kept (σ : Session) (e : Event)
    (h : σ.ui.success = "Transfer completed successfully!") :
    (σ.apply e).ui.success = "Transfer completed successfully!" := by
  cases e with
  | change raw =>
    show (handlePinChange σ.ui raw).success = _
    rw [handlePinChange_eq]; exact h
  | submit =>
    show (handlePinSubmitStart σ.search σ.ui).1.success = _
    unfold handlePinSubmitStart
    split <;> exact h
  | resolved o =>
    by_cases hr : σ.resolving = true
    · simp only [Session.apply, if_pos hr]
      rw [(fetchTransactionDetailsResume_fields σ.ui o).2.1]; exact h
    · simp only [Session.apply, if_neg hr]; exact h
  | verified o =>
    by_cases hv : 0 < σ.verifying
    · simp only [Session.apply, if_pos hv]
      rcases o with r | _
      · by_cases hs : r.success = true
        · rw [handlePinSubmitResume_success _ _ hs]
        · rw [handlePinSubmitResume_denied _ _ (by simpa using hs)]; exact h
      · rw [handlePinSubmitResume_throws]; exact h
    · simp only [Session.apply, if_neg hv]; exact h

theorem dispatch_success_kept (σ : Session) (e : Event)
    (h : σ.ui.success = "Transfer completed successfully!") :
    (σ.dispatch e).ui.success = "Transfer completed successfully!" := by
  unfold Session.dispatch
  split
  · exact apply_success_kept σ e h
  · exact h

theorem run_success_kept (es : List Event) :
    ∀ σ : Session, σ.ui.success = "Transfer completed successfully!" →
      (σ.run es).ui.success = "Transfer completed successfully!" := by
  induction es with
  | nil => intro σ h; exact h
  | cons e es ih => intro σ h; exact ih (σ.dispatch e) (dispatch_success_kept σ e h)

theorem invoke_success_kept (es : List Event) :
    ∀ σ : Session, σ.ui.success = "Transfer completed successfully!" →
      (σ.invoke es).ui.success = "Transfer completed successfully!" := by
  induction es with
  | nil => intro σ h; exact h
  | cons e es ih => intro σ h; exact ih (σ.apply e) (apply_success_kept σ e h)

theorem dispatch_success_cases (σ : Session) (e : Event) :
    (σ.dispatch e).ui.success = σ.ui.success ∨
    ∃ r, e = .verified (.response r) ∧ r.success = true ∧ 0 < σ.verifying := by
  by_cases hd : σ.delivers e = true
  swap
  · left; unfold Session.dispatch; rw [if_neg hd]
  cases e with
  | change raw =>
    left
    unfold Session.dispatch
    rw [if_pos hd]
    show (handlePinChange σ.ui raw).success = _
    rw [handlePinChange_eq]
  | submit =>
    left
    obtain ⟨hf, h4, hl⟩ := (delivers_submit_iff σ).1 hd
    rw [dispatch_submit_ready σ hf hl h4]
  | resolved o =>
    left
    by_cases hr : σ.resolving = true
    · simp only [Session.dispatch, Session.delivers, if_true, Session.apply, if_pos hr]
      exact (fetchTransactionDetailsResume_fields σ.ui o).2.1
    · simp only [Session.dispatch, Session.delivers, if_true, Session.apply, if_neg hr]
  | verified o =>
    by_cases hv : 0 < σ.verifying
    swap
    · left
      simp only [Session.dispatch, Session.delivers, if_true, Session.apply, if_neg hv]
    rcases o with r | _
    · by_cases hs : r.success = true
      · exact Or.inr ⟨r, rfl, hs, hv⟩
      · left
        rw [dispatch_verified σ _ hv, handlePinSubmitResume_denied _ _ (by simpa using hs)]
    · left
      rw [dispatch_verified σ _ hv, handlePinSubmitResume_throws]

theorem verifyRequests_submit_length (σ : Session) :
    (verifyRequests (σ.sent ++ [σ.verifyRequest])).length
      = (verifyRequests σ.sent).length + 1 := by
  simp [verifyRequests, Session.verifyRequest, List.filter_append]

theorem dispatch_change_eq (σ : Session) (raw : String)
    (hd : σ.delivers (.change raw) = true) :
    σ.dispatch (.change raw) =
      { σ with ui := { σ.ui with pin := (handlePinChange σ.ui raw).pin } } := by
  unfold Session.dispatch
  rw [if_pos hd]
  show { σ with ui := handlePinChange σ.ui raw } = _
  rw [← handlePinChange_eq]

theorem dispatch_resolved_eq (σ : Session) (o : Outcome) (hr : σ.resolving = true) :
    σ.dispatch (.resolved o) =
      { σ with ui := fetchTransactionDetailsResume σ.ui o, resolving := false } := by
  simp only [Session.dispatch, Session.delivers, if_true, Session.apply, if_pos hr]

theorem dispatch_resolved_idle (σ : Session) (o : Outcome) (hr : ¬ σ.resolving = true) :
    σ.dispatch (.resolved o) = σ := by
  simp only [Session.dispatch, Session.delivers, if_true, Session.apply, if_neg hr]

theorem dispatch_verified_idle (σ : Session) (o : Outcome) (hv : ¬ 0 < σ.verifying) :
    σ.dispatch (.verified o) = σ := by
  simp only [Session.dispatch, Session.delivers, if_true, Session.apply, if_neg hv]

theorem mounted_inv2 (search : URLSearchParams) : Inv2 (Session.mounted search) := by
  unfold Session.mounted mountEffect
  rcases hg : getTransactionId search with _ | txnId
  · constructor <;> simp [State.initial]
  · by_cases he : txnId = ""
    · constructor <;> simp [he, State.initial]
    · constructor <;> simp [he, State.initial]

theorem dispatch_inv2 (σ : Session) (e : Event) (h : Inv σ) (h2 : Inv2 σ) :
    Inv2 (σ.dispatch e) := by
  by_cases hd : σ.delivers e = true
  swap
  · unfold Session.dispatch; rw [if_neg hd]; exact h2
  cases e with
  | change raw =>
    rw [dispatch_change_eq σ raw hd]
    exact ⟨h2.inflight_sent, h2.success_sent, h2.resubmitted, h2.both_sent⟩
  | submit =>
    obtain ⟨hf, h4, hl⟩ := (delivers_submit_iff σ).1 hd
    rw [dispatch_submit_ready σ hf hl h4]
    have hlen := verifyRequests_submit_length σ
    refine ⟨?_, ?_, ?_, ?_⟩
    · intro _
      show 1 ≤ (verifyRequests (σ.sent ++ [σ.verifyRequest])).length
      omega
    · intro _
      show 1 ≤ (verifyRequests (σ.sent ++ [σ.verifyRequest])).length
      omega
    · intro hs _
      have := h2.success_sent hs
      show 2 ≤ (verifyRequests (σ.sent ++ [σ.verifyRequest])).length
      omega
    · intro _ he
      exact absurd rfl he
  | resolved o =>
    by_cases hr : σ.resolving = true
    swap
    · rw [dispatch_resolved_idle σ o hr]; exact h2
    rw [dispatch_resolved_eq σ o hr]
    obtain ⟨_, hsu, _⟩ := fetchTransactionDetailsResume_fields σ.ui o
    obtain ⟨hv0, hnone⟩ := h.fetching_idle (h.resolving_fetching hr)
    have hno : ¬ (fetchTransactionDetailsResume σ.ui o).success ≠ "" := by
      intro hs
      rw [hsu] at hs
      have := h2.success_sent hs
      rw [hnone] at this
      exact absurd this (by decide)
    refine ⟨?_, ?_, ?_, ?_⟩
    · intro hv
      have hv2 : 0 < σ.verifying := hv
      omega
    · intro hs; exact absurd hs hno
    · intro hs; exact absurd hs hno
    · intro hs; exact absurd hs hno
  | verified o =>
    by_cases hv : 0 < σ.verifying
    swap
    · rw [dispatch_verified_idle σ o hv]; exact h2
    rw [dispatch_verified σ o hv]
    have h1 := h.single
    refine ⟨?_, ?_, ?_, ?_⟩
    · intro hv2
      have hv3 : 0 < σ.verifying - 1 := hv2
      omega
    · intro _
      exact h2.inflight_sent hv
    · intro _ hv2
      have hv3 : 0 < σ.verifying - 1 := hv2
      omega
    · rcases o with r | _
      · by_cases hs : r.success = true
        · rw [handlePinSubmitResume_success _ _ hs]
          intro _ he
          exact absurd (h.inflight hv).2 he
        · rw [handlePinSubmitResume_denied _ _ (by simpa using hs)]
          intro hsu _
          exact h2.resubmitted hsu hv
      · rw [handlePinSubmitResume_throws]
        intro hsu _
        exact h2.resubmitted hsu hv

theorem run_inv_both (es : List Event) :
    ∀ σ : Session, Inv σ → Inv2 σ → Inv (σ.run es) ∧ Inv2 (σ.run es) := by
  induction es with
  | nil => intro σ h h2; exact ⟨h, h2⟩
  | cons e es ih =>
    intro σ h h2
    exact ih (σ.dispatch e) (dispatch_inv σ e h) (dispatch_inv2 σ e h h2)

theorem run_snoc (σ : Session) (es : List Event) (e : Event) :
    σ.run (es ++ [e]) = (σ.run es).dispatch e := by
  simp [Session.run, List.foldl_append]

theorem dispatch_from_clean (σ : Session) (e : Event) (h : Inv σ) (h2 : Inv2 σ)
    (hs : (σ.dispatch e).ui.success ≠ "")
    (hbad : (σ.dispatch e).ui.error ≠ "" ∨ 0 < (σ.dispatch e).verifying)
    (hclean : σ.ui.success = "" ∨ (σ.ui.error = "" ∧ σ.verifying = 0)) :
    e = .submit ∧ σ.delivers .submit = true ∧ σ.ui.success ≠ "" := by
  have hstay : σ.dispatch e = σ → False := by
    intro heq
    rw [heq] at hs hbad
    rcases hclean with hc | ⟨hce, hcv⟩
    · exact hs hc
    · rcases hbad with hb | hb
      · exact hb hce
      · omega
  rcases hclean with hc | ⟨hce, hcv⟩
  · rcases dispatch_success_cases σ e with hk | ⟨r, he, hr, hv⟩
    · exact absurd (hk.trans hc) hs
    · exfalso
      have h1 := h.single
      rw [he, dispatch_verified σ _ hv, handlePinSubmitResume_success _ _ hr] at hbad
      rcases hbad with hb | hb
      · exact hb (h.inflight hv).2
      · have hb2 : 0 < σ.verifying - 1 := hb
        omega
  · by_cases hd : σ.delivers e = true
    swap
    · exfalso
      apply hstay
      unfold Session.dispatch
      rw [if_neg hd]
    cases e with
    | change raw =>
      exfalso
      rw [dispatch_change_eq σ raw hd] at hbad
      rcases hbad with hb | hb
      · exact hb hce
      · have hb2 : 0 < σ.verifying := hb
        omega
    | submit =>
      obtain ⟨hf, h4, hl⟩ := (delivers_submit_iff σ).1 hd
      rw [dispatch_submit_ready σ hf hl h4] at hs
      exact ⟨rfl, hd, hs⟩
    | resolved o =>
      exfalso
      by_cases hr : σ.resolving = true
      · rw [dispatch_resolved_eq σ o hr] at hs
        have hs2 : (fetchTransactionDetailsResume σ.ui o).success ≠ "" := hs
        rw [(fetchTransactionDetailsResume_fields σ.ui o).2.1] at hs2
        have := h2.success_sent hs2
        rw [(h.fetching_idle (h.resolving_fetching hr)).2] at this
        exact absurd this (by decide)
      · exact hstay (dispatch_resolved_idle σ o hr)
    | verified o =>
      exfalso
      exact hstay (dispatch_verified_idle σ o (by omega))

theorem run_resubmitted (σ0 : Session) (h0 : Inv σ0) (h02 : Inv2 σ0)
    (h0s : σ0.ui.success = "") (es : List Event) :
    (σ0.run es).ui.success ≠ "" →
    ((σ0.run es).ui.error ≠ "" ∨ 0 < (σ0.run es).verifying) →
    ∃ pre post, es = pre ++ .submit :: post ∧
      (σ0.run pre).ui.success ≠ "" ∧ (σ0.run pre).delivers .submit = true := by
  induction es using List.reverseRecOn with
  | nil =>
    intro hs _
    exact absurd h0s hs
  | append_singleton es e ih =>
    intro hs hbad
    rw [run_snoc] at hs hbad
    obtain ⟨hi, hi2⟩ := run_inv_both es σ0 h0 h02
    by_cases hprev : (σ0.run es).ui.success ≠ "" ∧
        ((σ0.run es).ui.error ≠ "" ∨ 0 < (σ0.run es).verifying)
    · obtain ⟨pre, post, heq, hpre⟩ := ih hprev.1 hprev.2
      exact ⟨pre, post ++ [e], by rw [heq]; simp, hpre⟩
    · have hclean : (σ0.run es).ui.success = "" ∨
          ((σ0.run es).ui.error = "" ∧ (σ0.run es).verifying = 0) := by
        by_cases hsu : (σ0.run es).ui.success = ""
        · exact Or.inl hsu
        · right
          constructor
          · by_contra hne
            exact hprev ⟨hsu, Or.inl hne⟩
          · by_contra hne
            exact hprev ⟨hsu, Or.inr (Nat.pos_of_ne_zero hne)⟩
      obtain ⟨he, hd, hsu⟩ := dispatch_from_clean _ e hi hi2 hs hbad hclean
      exact ⟨es, [], by rw [he], hsu, hd⟩

/-! ## Claims -/

/-- C8: in every state reached after the mount through any sequence of
handler invocations (input changes with arbitrary raw strings, submits, and
settling calls, among them the clears done by `handlePinSubmit`), whether or not
the page could deliver them, the candidate consists only of the characters
`0`-`9` and has length at most 4.  The length check of `handlePinChange` is made
on the raw string with its non-digits removed: that string is stored when it has
at most 4 characters, and the candidate is left as it was otherwise. -/
theorem pin_always_candidate (search : URLSearchParams) (es : List Event) :
    IsCandidate ((Session.mounted search).invoke es).ui.pin ∧
    IsCandidate ((Session.mounted search).run es).ui.pin ∧
    ∀ (s : State) (raw : String),
      (handlePinChange s raw).pin =
        if (raw.toList.filter fun c => '0' ≤ c ∧ c ≤ '9').length ≤ 4 then
          String.mk (raw.toList.filter fun c => '0' ≤ c ∧ c ≤ '9')
        else s.pin := by
  have h0 : IsCandidate (Session.mounted search).ui.pin := by
    rw [mounted_pin]; exact isCandidate_empty
  refine ⟨invoke_candidate es _ h0, run_candidate es _ h0, fun s raw => ?_⟩
  have hjs := jsLength_eq_length _ (stripNonDigits_digits raw)
  unfold handlePinChange
  simp only [hjs]
  by_cases hle : (stripNonDigits raw).length ≤ 4
  · rw [if_pos hle, if_pos (by simpa [stripNonDigits] using hle)]
    rfl
  · rw [if_neg hle, if_neg (by simpa [stripNonDigits] using hle)]

/-- C1: for a candidate reached from the empty pin by any sequence of
`handlePinChange` calls, `handlePinSubmit` sends a request if and only if the
candidate is exactly 4 characters, all of them digits; the request sent is the
`verify_pin` request carrying the candidate; otherwise the error is set to
`Please enter a 4-digit PIN`, nothing is sent and `loading` is still false. -/
theorem handlePinSubmit_sends_iff_four_digits (search : URLSearchParams) (s0 : State)
    (raws : List String) (hpin : s0.pin = "") (hload : s0.loading = false) :
    ((handlePinSubmitStart search (raws.foldl handlePinChange s0)).2.isSome ↔
      ((raws.foldl handlePinChange s0).pin.length = 4 ∧
        ∀ c ∈ (raws.foldl handlePinChange s0).pin.toList, '0' ≤ c ∧ c ≤ '9')) ∧
    ((handlePinSubmitStart search (raws.foldl handlePinChange s0)).2.isSome →
      (handlePinSubmitStart search (raws.foldl handlePinChange s0)).2 =
        some { action := "verify_pin", transaction_id := getTransactionId search,
               pin := some (raws.foldl handlePinChange s0).pin }) ∧
    (¬ (handlePinSubmitStart search (raws.foldl handlePinChange s0)).2.isSome →
      (handlePinSubmitStart search (raws.foldl handlePinChange s0)).1.error
          = "Please enter a 4-digit PIN" ∧
      (handlePinSubmitStart search (raws.foldl handlePinChange s0)).2 = none ∧
      (handlePinSubmitStart search (raws.foldl handlePinChange s0)).1.loading = false) := by
  have hc : IsCandidate (raws.foldl handlePinChange s0).pin :=
    changes_candidate raws s0 (by rw [hpin]; exact isCandidate_empty)
  have hl : (raws.foldl handlePinChange s0).loading = false := by
    rw [changes_loading, hload]
  generalize raws.foldl handlePinChange s0 = s at hc hl
  have hjs := jsLength_eq_length s.pin hc.1
  unfold handlePinSubmitStart
  by_cases h4 : s.pin.length = 4
  · have : ¬ jsLength s.pin ≠ 4 := by rw [hjs]; simpa using h4
    rw [if_neg this]
    exact ⟨⟨fun _ => ⟨h4, hc.1⟩, fun _ => rfl⟩, fun _ => rfl, fun h => absurd rfl h⟩
  · have : jsLength s.pin ≠ 4 := by rw [hjs]; exact h4
    rw [if_pos this]
    refine ⟨⟨fun h => by simp at h, fun h => absurd h.1 h4⟩, fun h => by simp at h, fun _ => ?_⟩
    exact ⟨rfl, rfl, hl⟩

/-- Witness of C1: typing `12ab34` and then submitting. -/
theorem handlePinSubmit_sends_iff_four_digits_witness :
    (handlePinSubmitStart [("txn_id", "T1")] (["12ab34"].foldl handlePinChange State.initial)).2
      = some { action := "verify_pin", transaction_id := some "T1", pin := some "1234" } := by
  have h := (handlePinSubmit_sends_iff_four_digits [("txn_id", "T1")] State.initial ["12ab34"]
    rfl rfl).2.1
  exact h (by decide)

/-- C7: when the query string has no `txn_id` parameter, or its first one is
empty, the mount effect sets the error `Invalid transaction link` and
`fetchingTransaction` to false, sends no request, and `transactionData` is
still `null`. -/
theorem mount_without_reference (search : URLSearchParams)
    (h : (∀ p ∈ search, p.1 ≠ "txn_id") ∨ getTransactionId search = some "") :
    (mountEffect search State.initial).2 = none ∧
    (mountEffect search State.initial).1.error = "Invalid transaction link" ∧
    (mountEffect search State.initial).1.fetchingTransaction = false ∧
    (mountEffect search State.initial).1.transactionData = none ∧
    (Session.mounted search).sent = [] ∧
    (Session.mounted search).resolving = false := by
  have hget : getTransactionId search = none ∨ getTransactionId search = some "" := by
    rcases h with h | h
    · left
      unfold getTransactionId URLSearchParams.get
      rw [Option.map_eq_none', List.find?_eq_none]
      intro p hp
      simpa using h p hp
    · exact Or.inr h
  unfold Session.mounted mountEffect
  rcases hget with hg | hg <;> rw [hg] <;> simp [State.initial]

/-- Witness of C7: the links `?ref=9` and `?txn_id=`. -/
theorem mount_without_reference_witness :
    (Session.mounted [("ref", "9")]).sent = [] ∧ (Session.mounted [("txn_id", "")]).sent = [] :=
  ⟨(mount_without_reference [("ref", "9")] (Or.inl (by decide))).2.2.2.2.1,
   (mount_without_reference [("txn_id", "")] (Or.inr (by decide))).2.2.2.2.1⟩

/-- C9: for a non-empty reference in the link, the mount effect calls
`fetchTransactionDetails`, which sends exactly one request, with action
`get_transaction` and the reference as `transaction_id`, and for every outcome
sets `fetchingTransaction` to false.  On a success response `transactionData`
is the response's `transaction` and the error is still empty; on a failure
response `transactionData` is still `null` and the error is the server's error
string, or `Transaction not found` when that is absent or empty; when the call
throws the error is `Failed to load transaction details`.  No handler invoked
later in the session sends another `get_transaction` request. -/
theorem fetchTransactionDetails_contract (search : URLSearchParams) (txnId : String)
    (net : Request → Outcome)
    (href : getTransactionId search = some txnId) (hne : txnId ≠ "") :
    (mountEffect search State.initial =
      (State.initial, some (fetchTransactionDetailsRequest txnId))) ∧
    (fetchTransactionDetails net txnId State.initial).2 =
      [{ action := "get_transaction", transaction_id := some txnId, pin := none }] ∧
    (fetchTransactionDetails net txnId State.initial).1.fetchingTransaction = false ∧
    (∀ data, net (fetchTransactionDetailsRequest txnId) = .response data →
      data.success = true →
      (fetchTransactionDetails net txnId State.initial).1.transactionData = data.transaction ∧
      (fetchTransactionDetails net txnId State.initial).1.error = "") ∧
    (∀ data, net (fetchTransactionDetailsRequest txnId) = .response data →
      data.success = false →
      (fetchTransactionDetails net txnId State.initial).1.transactionData = none ∧
      (∀ e, data.error = some e → e ≠ "" →
        (fetchTransactionDetails net txnId State.initial).1.error = e) ∧
      (data.error = none ∨ data.error = some "" →
        (fetchTransactionDetails net txnId State.initial).1.error = "Transaction not found")) ∧
    (net (fetchTransactionDetailsRequest txnId) = .throws →
      (fetchTransactionDetails net txnId State.initial).1.transactionData = none ∧
      (fetchTransactionDetails net txnId State.initial).1.error
        = "Failed to load transaction details") ∧
    ((Session.mounted search).apply (.resolved (net (fetchTransactionDetailsRequest txnId))) =
      { search := search, ui := (fetchTransactionDetails net txnId State.initial).1,
        resolving := false, verifying := 0,
        sent := (fetchTransactionDetails net txnId State.initial).2, teardowns := 0 }) ∧
    (∀ es : List Event,
      resolveRequests ((Session.mounted search).invoke es).sent =
        [fetchTransactionDetailsRequest txnId]) := by
  have hmount : mountEffect search State.initial =
      (State.initial, some (fetchTransactionDetailsRequest txnId)) := by
    unfold mountEffect
    rw [href]
    simp only [if_neg hne]
  refine ⟨hmount, rfl, rfl, ?_, ?_, ?_, ?_, ?_⟩
  · intro data hnet hs
    simp [fetchTransactionDetails, fetchTransactionDetailsResume, hnet, hs, State.initial]
  · intro data hnet hs
    refine ⟨?_, ?_, ?_⟩
    · simp [fetchTransactionDetails, fetchTransactionDetailsResume, hnet, hs, State.initial]
    · intro e he hne2
      simp [fetchTransactionDetails, fetchTransactionDetailsResume, hnet, hs, he,
        orElse_some e _ hne2]
    · intro he
      simp [fetchTransactionDetails, fetchTransactionDetailsResume, hnet, hs,
        orElse_absent _ _ he]
  · intro hnet
    simp [fetchTransactionDetails, fetchTransactionDetailsResume, hnet, State.initial]
  · simp [Session.mounted, hmount, Session.apply, fetchTransactionDetails]
  · intro es
    rw [invoke_resolveRequests]
    simp [Session.mounted, hmount, resolveRequests, fetchTransactionDetailsRequest]

/-- Witness of C9: the link `?txn_id=T1` with the response of scenario A. -/
theorem fetchTransactionDetails_contract_witness :
    (fetchTransactionDetails (fun _ => .response scenarioA) "T1" State.initial).1.transactionData
        = scenarioA.transaction ∧
    (fetchTransactionDetails (fun _ => .response scenarioA) "T1" State.initial).1.error = "" :=
  (fetchTransactionDetails_contract [("txn_id", "T1")] "T1" (fun _ => .response scenarioA)
    (by decide) (by decide)).2.2.2.1 scenarioA rfl rfl

/-- C6: a submit delivered by the page in a state with the resolve finished, no
call in flight and a candidate of exactly 4 digits, answered by a response with
`success` false, sends only the `verify_pin` request (no `get_transaction`
request), and ends with the candidate cleared, `loading` false, the page still
shown, `transactionData` unchanged, no teardown timer set, and the error equal
to the server's error string, or to `PIN verification failed` when the server
gives none (absent or empty). -/
theorem denial_returns_to_ready (σ : Session) (r : Response)
    (hf : σ.ui.fetchingTransaction = false) (hl : σ.ui.loading = false)
    (hlen : σ.ui.pin.length = 4) (hdig : ∀ c ∈ σ.ui.pin.toList, '0' ≤ c ∧ c ≤ '9')
    (hdeny : r.success = false) :
    (σ.dispatch .submit).sent = σ.sent ++ [σ.verifyRequest] ∧
    ((σ.dispatch .submit).dispatch (.verified (.response r))).sent
      = σ.sent ++ [σ.verifyRequest] ∧
    ((σ.dispatch .submit).dispatch (.verified (.response r))).ui.pin = "" ∧
    ((σ.dispatch .submit).dispatch (.verified (.response r))).ui.loading = false ∧
    ((σ.dispatch .submit).dispatch (.verified (.response r))).ui.fetchingTransaction = false ∧
    ((σ.dispatch .submit).dispatch (.verified (.response r))).ui.transactionData
      = σ.ui.transactionData ∧
    ((σ.dispatch .submit).dispatch (.verified (.response r))).ui.success = σ.ui.success ∧
    ((σ.dispatch .submit).dispatch (.verified (.response r))).teardowns = σ.teardowns ∧
    (∀ e, r.error = some e → e ≠ "" →
      ((σ.dispatch .submit).dispatch (.verified (.response r))).ui.error = e) ∧
    (r.error = none ∨ r.error = some "" →
      ((σ.dispatch .submit).dispatch (.verified (.response r))).ui.error
        = "PIN verification failed") := by
  have h4 : jsLength σ.ui.pin = 4 := by rw [jsLength_eq_length _ hdig, hlen]
  rw [dispatch_submit_ready σ hf hl h4]
  rw [dispatch_verified _ _ (Nat.succ_pos _), handlePinSubmitResume_denied _ _ hdeny]
  refine ⟨rfl, rfl, rfl, rfl, hf, rfl, rfl, rfl, ?_, ?_⟩
  · intro e he hne
    show orElse r.error "PIN verification failed" = e
    rw [he, orElse_some e _ hne]
  · intro he
    show orElse r.error "PIN verification failed" = "PIN verification failed"
    rw [orElse_absent _ _ he]

/-- Witness of C6, scenario B: the server answers `Incorrect PIN`. -/
theorem denial_returns_to_ready_witness :
    ((scenarioB.dispatch .submit).dispatch (.verified (.response
      { success := false, error := some "Incorrect PIN", transaction := none }))).ui.error
        = "Incorrect PIN" ∧
    ((scenarioB.dispatch .submit).dispatch (.verified (.response
      { success := false, error := some "Incorrect PIN", transaction := none }))).ui.pin = "" :=
  have h := denial_returns_to_ready scenarioB
    { success := false, error := some "Incorrect PIN", transaction := none }
    (by decide) (by decide) (by decide) (by decide) rfl
  ⟨h.2.2.2.2.2.2.2.2.1 "Incorrect PIN" rfl (by decide), h.2.2.1⟩

/-- C3, as stated, fails: with a submission in flight (`loading` true),
invoking `handlePinSubmit` again sends a second `verify_pin` request; the
function has no guard on `loading`. -/
theorem handlePinSubmit_reentrant_sends :
    scenarioASubmitting.ui.loading = true ∧
    scenarioASubmitting.sent =
      [{ action := "get_transaction", transaction_id := some "T1", pin := none },
       { action := "verify_pin", transaction_id := some "T1", pin := some "1234" }] ∧
    handlePinSubmitStart scenarioASubmitting.search scenarioASubmitting.ui =
      (scenarioASubmitting.ui,
       some { action := "verify_pin", transaction_id := some "T1", pin := some "1234" }) ∧
    (scenarioASubmitting.apply .submit).sent =
      [{ action := "get_transaction", transaction_id := some "T1", pin := none },
       { action := "verify_pin", transaction_id := some "T1", pin := some "1234" },
       { action := "verify_pin", transaction_id := some "T1", pin := some "1234" }] ∧
    (scenarioASubmitting.apply .submit).verifying = 2 := by
  decide

/-- C3, amended: in every state with `loading` true the submit button and the
input are disabled, so a submit or an input change delivered by the page is a
no-op: no request is sent and the session is unchanged. -/
theorem submit_while_loading_blocked (σ : Session) (h : σ.ui.loading = true) :
    (render σ.ui).submitEnabled = false ∧ (render σ.ui).inputEnabled = false ∧
    σ.dispatch .submit = σ ∧ ∀ raw, σ.dispatch (.change raw) = σ := by
  refine ⟨?_, ?_, dispatch_blocked_of_loading σ h⟩
  · unfold render
    by_cases hf : σ.ui.fetchingTransaction = true <;> simp [hf, h, View.submitEnabled]
  · unfold render
    by_cases hf : σ.ui.fetchingTransaction = true <;> simp [hf, h, View.inputEnabled]

/-- Witness of C3, amended: the second submit of scenario A, delivered by the
page. -/
theorem submit_while_loading_blocked_witness :
    scenarioASubmitting.dispatch .submit = scenarioASubmitting :=
  (submit_while_loading_blocked scenarioASubmitting (by decide)).2.2.1

/-- C4, as stated, fails: on a link without `txn_id` the mount effect ends in
Failed (`Invalid transaction link`, no details), the form is shown all the
same, and typing `1234` and pressing the submit button sends a `verify_pin`
request; likewise after a `get_transaction` response with `success` false. -/
theorem failed_session_still_submits :
    (Session.mounted []).ui.error = "Invalid transaction link" ∧
    (Session.mounted []).ui.transactionData = none ∧
    (Session.mounted []).sent = [] ∧
    ((Session.mounted []).run [.change "1234", .submit]).sent =
      [{ action := "verify_pin", transaction_id := none, pin := some "1234" }] ∧
    ((Session.mounted [("txn_id", "T1")]).run
      [.resolved (.response { success := false, error := none, transaction := none })]).ui
      = { pin := "", loading := false, error := "Transaction not found", success := "",
          transactionData := none, fetchingTransaction := false } ∧
    ((Session.mounted [("txn_id", "T1")]).run
      [.resolved (.response { success := false, error := none, transaction := none }),
       .change "1234", .submit]).sent =
      [{ action := "get_transaction", transaction_id := some "T1", pin := none },
       { action := "verify_pin", transaction_id := some "T1", pin := some "1234" }] := by
  decide

/-- C4, amended: no PIN is accepted while the resolve is pending.  In every
reachable state that is still Initializing (`fetchingTransaction` true) the
loading screen is shown instead of the form, no `verify_pin` request has been
sent, and a submit or an input change has no effect.  Once
`fetchingTransaction` is false the form is shown whether or not details were
fetched: with no submission in flight and a 4-character candidate, a submit
sends the `verify_pin` request. -/
theorem no_submit_while_initializing (search : URLSearchParams) (es : List Event) :
    (((Session.mounted search).run es).ui.fetchingTransaction = true →
      render ((Session.mounted search).run es).ui = .loadingScreen ∧
      verifyRequests ((Session.mounted search).run es).sent = [] ∧
      ((Session.mounted search).run es).dispatch .submit = (Session.mounted search).run es ∧
      ∀ raw, ((Session.mounted search).run es).dispatch (.change raw)
        = (Session.mounted search).run es) ∧
    (((Session.mounted search).run es).ui.fetchingTransaction = false →
      ((Session.mounted search).run es).ui.loading = false →
      jsLength ((Session.mounted search).run es).ui.pin = 4 →
      (((Session.mounted search).run es).dispatch .submit).sent =
        ((Session.mounted search).run es).sent ++
          [((Session.mounted search).run es).verifyRequest]) := by
  have hinv : Inv ((Session.mounted search).run es) := run_inv es _ (mounted_inv search)
  generalize (Session.mounted search).run es = σ at hinv
  constructor
  · intro hf
    have hb := dispatch_blocked_of_fetching σ hf
    refine ⟨?_, (hinv.fetching_idle hf).2, hb.1, hb.2⟩
    unfold render
    rw [if_pos hf]
  · intro hf hl h4
    rw [dispatch_submit_ready σ hf hl h4]

/-- Witness of C4, amended: a submit while the details of `?txn_id=T1` are
being fetched. -/
theorem no_submit_while_initializing_witness :
    (Session.mounted [("txn_id", "T1")]).dispatch .submit = Session.mounted [("txn_id", "T1")] :=
  ((no_submit_while_initializing [("txn_id", "T1")] []).1 (by decide)).2.2.1

/-- C2, as stated, fails: after the `verify_pin` response with `success` true
the success message is set, but `loading` is back to false and the candidate is
kept, so the input and the submit button are enabled, and pressing submit again
sends a second `verify_pin` request for the same reference. -/
theorem committed_session_resubmits :
    scenarioACommitted.ui.success = "Transfer completed successfully!" ∧
    scenarioACommitted.ui.pin = "1234" ∧
    (render scenarioACommitted.ui).inputEnabled = true ∧
    (render scenarioACommitted.ui).submitEnabled = true ∧
    verifyRequests scenarioACommitted.sent =
      [{ action := "verify_pin", transaction_id := some "T1", pin := some "1234" }] ∧
    verifyRequests (scenarioACommitted.run [.submit]).sent =
      [{ action := "verify_pin", transaction_id := some "T1", pin := some "1234" },
       { action := "verify_pin", transaction_id := some "T1", pin := some "1234" }] := by
  decide

/-- C2, amended: a `verify_pin` response with `success` true sets the success
message `Transfer completed successfully!`, sets `loading` to false, sets one
teardown timer, sends nothing and changes nothing else (the candidate is kept);
and the success message stays set under every later sequence of events, whether
delivered by the page or invoked directly. -/
theorem committed_persists (σ : Session) (r : Response)
    (hv : 0 < σ.verifying) (hs : r.success = true) :
    (σ.dispatch (.verified (.response r))).ui =
      { σ.ui with success := "Transfer completed successfully!", loading := false } ∧
    (σ.dispatch (.verified (.response r))).teardowns = σ.teardowns + 1 ∧
    (σ.dispatch (.verified (.response r))).sent = σ.sent ∧
    (∀ es, (((σ.dispatch (.verified (.response r))).run es).ui.success
        = "Transfer completed successfully!")) ∧
    (∀ es, (((σ.dispatch (.verified (.response r))).invoke es).ui.success
        = "Transfer completed successfully!")) := by
  rw [dispatch_verified σ _ hv, handlePinSubmitResume_success _ _ hs]
  exact ⟨rfl, rfl, rfl, fun es => run_success_kept es _ rfl,
    fun es => invoke_success_kept es _ rfl⟩

/-- Witness of C2, amended: scenario A. -/
theorem committed_persists_witness :
    ((scenarioASubmitting.dispatch (.verified (.response
      { success := true, error := none, transaction := none }))).run
        [.change "12", .submit]).ui.success = "Transfer completed successfully!" :=
  (committed_persists scenarioASubmitting
    { success := true, error := none, transaction := none } (by decide) rfl).2.2.2.1
      [.change "12", .submit]

/-- C10, as stated, fails: after the commit of scenario A the submit button is
enabled again; pressing it and getting a denial leaves both the success message
and an error message set. -/
theorem success_and_error_together :
    (scenarioACommitted.run [.submit, .verified (.response
      { success := false, error := some "Transaction already completed",
        transaction := none })]).ui.success = "Transfer completed successfully!" ∧
    (scenarioACommitted.run [.submit, .verified (.response
      { success := false, error := some "Transaction already completed",
        transaction := none })]).ui.error = "Transaction already completed" := by
  decide

/-- C10, amended: in every state reachable from the mount through events
delivered by the page, the success message and the error message are both
non-empty only after a resubmission: some earlier submit was delivered by the
page in a state that already showed the success message, and at least two
`verify_pin` requests have been sent.  In every other reachable state they are
not both non-empty. -/
theorem success_error_only_after_resubmit (search : URLSearchParams) (es : List Event)
    (h : ((Session.mounted search).run es).ui.success ≠ "" ∧
         ((Session.mounted search).run es).ui.error ≠ "") :
    2 ≤ (verifyRequests ((Session.mounted search).run es).sent).length ∧
    ∃ pre post, es = pre ++ .submit :: post ∧
      ((Session.mounted search).run pre).ui.success ≠ "" ∧
      ((Session.mounted search).run pre).delivers .submit = true := by
  constructor
  · exact (run_inv_both es _ (mounted_inv search) (mounted_inv2 search)).2.both_sent h.1 h.2
  · exact run_resubmitted _ (mounted_inv search) (mounted_inv2 search)
      (mounted_success search) es h.1 (Or.inl h.2)

/-- Witness of C10, amended: in scenario A followed by a resubmission that is
denied, two `verify_pin` requests have been sent. -/
theorem success_error_only_after_resubmit_witness :
    2 ≤ (verifyRequests ((Session.mounted [("txn_id", "T1")]).run
      [.resolved (.response scenarioA), .change "1234", .submit,
       .verified (.response { success := true, error := none, transaction := none }),
       .submit,
       .verified (.response { success := false, error := some "Incorrect PIN",
                              transaction := none })]).sent).length :=
  (success_error_only_after_resubmit [("txn_id", "T1")]
    [.resolved (.response scenarioA), .change "1234", .submit,
     .verified (.response { success := true, error := none, transaction := none }),
     .submit,
     .verified (.response { success := false, error := some "Incorrect PIN",
                            transaction := none })]
    (by decide)).1

/-- C5: evaluation at the failing input.  In scenario A, when the `verify_pin`
call throws, the state has `loading` false, the error
`Network error. Please try again.` and the details unchanged, but the candidate
is still `1234`: the `catch` branch does not clear it. -/
theorem transport_error_keeps_pin :
    (scenarioASubmitting.dispatch (.verified .throws)).ui =
      { pin := "1234", loading := false, error := "Network error. Please try again.",
        success := "", transactionData := scenarioA.transaction,
        fetchingTransaction := false } ∧
    (scenarioASubmitting.dispatch (.verified (.response
      { success := false, error := none, transaction := none }))).ui.pin = "" := by
  decide

end VerifyPin
